import Mathlib

set_option maxRecDepth 16384

/-!
Shallow embedding of the Apple ][ DOS 3.3 disk-image reader (a2disk.py,
applesoft.py) and proofs about its specification claims.

Modelling conventions:
* a disk image is a flat `List Nat` of byte values; a sector is the
  256-byte slice starting at `(track * 16 + sector) * 256`;
* fallible operations return `Except String` with a fixed message per
  raise site, mirroring the exception raised by the source;
* byte indexing into a sector buffer uses `List.getD _ _ 0`; this agrees
  with the source whenever the buffer is a full 256-byte sector, which is
  the case for every read on a full-geometry image.  Where the source
  would raise `IndexError` on a short buffer (the VTOC validation loop),
  the model uses `List.get?` and an explicit "index out of range" error;
* the loops of the source become structurally recursive functions whose
  fuel argument is the source's own hop counter (the source raises once
  `hop >= MAX_HOPS`, i.e. after at most `MAX_HOPS - 1` completed hops,
  so the walkers are entered with `MAX_HOPS - 1` fuel).
-/

namespace A2Disk

/-- `Disk.TRACKS_PER_DISK` (0x23). -/
def TRACKS_PER_DISK : Nat := 0x23

/-- `Disk.SECTORS_PER_TRACK` (0x10). -/
def SECTORS_PER_TRACK : Nat := 0x10

/-- `Disk.SECTOR_SIZE` (0x100). -/
def SECTOR_SIZE : Nat := 0x100

/-- `MAX_HOPS` from a2disk.py. -/
def MAX_HOPS : Nat := 560

/-- `bit_count(word)`: number of on-bits among the 16 low bits. -/
def bit_count (word : Nat) : Nat :=
  ((List.range 0x10).map (fun j => if word &&& (1 <<< j) ≠ 0 then 1 else 0)).sum

/-- `read_word_bigendian(buff, offset)`. -/
def read_word_bigendian (buff : List Nat) (offset : Nat) : Nat :=
  buff.getD offset 0 * 0x100 + buff.getD (offset + 1) 0

/-- `read_word_littleendian(buff, offset)`. -/
def read_word_littleendian (buff : List Nat) (offset : Nat) : Nat :=
  buff.getD offset 0 + buff.getD (offset + 1) 0 * 0x100

/-- The byte list Python's `range(start, stop, step)` yields (step > 0). -/
def pythonRange (start stop step : Nat) : List Nat :=
  (List.range ((stop - start + step - 1) / step)).map (fun k => start + k * step)

/-- `Disk.read_sect` composed with `Disk.seek_sect`: bounds check, then the
256-byte slice at the sector's flat offset (a short image yields a short
read, exactly like `file.read`). -/
def read_sect (image : List Nat) (track sector : Nat) : Except String (List Nat) :=
  if TRACKS_PER_DISK ≤ track ∨ SECTORS_PER_TRACK ≤ sector then
    .error "seek out of range"
  else
    .ok ((image.drop ((track * SECTORS_PER_TRACK + sector) * SECTOR_SIZE)).take SECTOR_SIZE)

/-! ### VTOC -/

/-- `VTOC.VALIDATION`: the six (offset, expected value) pairs. -/
def VALIDATION : List (Nat × Nat) :=
  [(0x03, 0x03), (0x27, 0x7A), (0x34, TRACKS_PER_DISK), (0x35, SECTORS_PER_TRACK),
   (0x36, SECTOR_SIZE % 0x100), (0x37, SECTOR_SIZE / 0x100)]

/-- The `VTOC.validate` loop over a list of checks.  A byte access past the
end of the buffer is Python's `IndexError` ("index out of range"). -/
def validateList (vtoc_buffer : List Nat) : List (Nat × Nat) → Except String Unit
  | [] => .ok ()
  | (offset, value) :: rest =>
    match vtoc_buffer.get? offset with
    | none => .error "index out of range"
    | some b =>
      if b ≠ value then .error "not an Apple DOS 3.3 disk"
      else validateList vtoc_buffer rest

/-- `VTOC.validate`. -/
def validate (vtoc_buffer : List Nat) : Except String Unit :=
  validateList vtoc_buffer VALIDATION

/-- `VTOC.__init__`: read the sector at the fixed address (0x11, 0x00) and
validate it; the constructed object's state is the buffer. -/
def mkVTOC (image : List Nat) : Except String (List Nat) := do
  let buffer ← read_sect image 0x11 0x00
  let _ ← validate buffer
  pure buffer

/-- `VTOC.track_map(track)`. -/
def track_map (vtoc_buffer : List Nat) (track : Nat) : Nat :=
  read_word_bigendian vtoc_buffer (0x38 + track * 0x04)

/-- `VTOC.free_sectors`. -/
def free_sectors (vtoc_buffer : List Nat) : Nat :=
  ((List.range TRACKS_PER_DISK).map (fun track_number =>
    bit_count (track_map vtoc_buffer track_number))).sum

/-! ### Catalog -/

/-- One decoded catalog entry, with the fields in the order the source
hands them to the callback.  The name is kept as the list of its 30
character codes (each source byte masked with 0x7F). -/
structure Entry where
  ts_track : Nat
  ts_sector : Nat
  locked : Nat
  file_type : Nat
  size : Nat
  name : List Nat
  deriving Repr, DecidableEq

/-- Decoding of one catalog slot, `buff = catalog_sector[i:]`. -/
def decode_entry (buff : List Nat) : Entry :=
  { ts_track := buff.getD 0x00 0
    ts_sector := buff.getD 0x01 0
    locked := buff.getD 0x02 0 &&& 0x80
    file_type := buff.getD 0x02 0 &&& 0x7F
    size := read_word_littleendian buff 0x21
    name := (List.range' 0x03 0x1E).map (fun j => buff.getD j 0 &&& 0x7F) }

/-- The inner slot loop of `Catalog.walk_entries`: the entries the loop
hands to the callback, in slot order (`range(0x0B, 0xFF, 0x23)`). -/
def sector_entries (catalog_sector : List Nat) : List Entry :=
  (pythonRange 0x0B 0xFF 0x23).filterMap (fun i =>
    let buff := catalog_sector.drop i
    if buff.getD 0x00 0 ≠ 0xFF ∧ buff.getD 0x03 0 ≠ 0x00 then
      some (decode_entry buff)
    else none)

/-- The `while` loop of `Catalog.walk_entries`, with a callback that never
short-circuits, collecting every entry handed to the callback.  The fuel
argument counts the hops the source's counter still allows. -/
def walkEntriesLoop (image : List Nat) (track sector : Nat) (hopsLeft : Nat) :
    Except String (List Entry) :=
  if track = 0x00 then .ok []
  else
    match hopsLeft with
    | 0 => .error "exceeded catalog hops"
    | h + 1 => do
      let catalog_sector ← read_sect image track sector
      let rest ← walkEntriesLoop image (catalog_sector.getD 0x01 0)
        (catalog_sector.getD 0x02 0) h
      pure (sector_entries catalog_sector ++ rest)

/-- `Catalog.walk_entries` from a given head address (the source raises at
`hop >= 560`, i.e. it completes at most 559 hops). -/
def walk_entries (image : List Nat) (track sector : Nat) : Except String (List Entry) :=
  walkEntriesLoop image track sector (MAX_HOPS - 1)

/-- `Catalog.walk_entries` as `dump`'s `find_entry` uses it: the callback
returns the (start track, start sector, file type) triple of the first
entry whose name equals the padded target, short-circuiting the walk. -/
def walkFindLoop (image : List Nat) (target : List Nat) (track sector : Nat)
    (hopsLeft : Nat) : Except String (Option (Nat × Nat × Nat)) :=
  if track = 0x00 then .ok none
  else
    match hopsLeft with
    | 0 => .error "exceeded catalog hops"
    | h + 1 => do
      let catalog_sector ← read_sect image track sector
      match (sector_entries catalog_sector).find? (fun e => e.name = target) with
      | some e => pure (some (e.ts_track, e.ts_sector, e.file_type))
      | none =>
        walkFindLoop image target (catalog_sector.getD 0x01 0)
          (catalog_sector.getD 0x02 0) h

/-! ### Files -/

/-- The inner slot loop of `Files.walk_sectors`: `i` is the current slot
offset, `k` the number of slots `range(0x0C, 0xFF, 0x02)` still yields
(122 at the start).  Collects the data-sector payloads handed to the
callback, in callback order. -/
def innerLoop (image ts_list : List Nat) : Nat → Nat → Except String (List (List Nat))
  | _, 0 => .ok []
  | i, k + 1 =>
    let file_track := ts_list.getD i 0
    let file_sector := ts_list.getD (i + 1) 0
    if file_track = 0x00 ∧ file_sector = 0x00 then .ok []
    else do
      let data ← read_sect image file_track file_sector
      let rest ← innerLoop image ts_list (i + 2) k
      pure (data :: rest)

/-- Number of slots Python's `range(0x0C, 0xFF, 0x02)` yields. -/
def TS_SLOTS : Nat := 122

/-- The `while` loop of `Files.walk_sectors`, collecting the payloads
handed to the callback in callback order. -/
def walkSectorsLoop (image : List Nat) (track sector : Nat) (hopsLeft : Nat) :
    Except String (List (List Nat)) :=
  if track = 0x00 then .ok []
  else
    match hopsLeft with
    | 0 => .error "exceeded track/sector list hops"
    | h + 1 => do
      let ts_list ← read_sect image track sector
      let payloads ← innerLoop image ts_list 0x0C TS_SLOTS
      let rest ← walkSectorsLoop image (ts_list.getD 0x01 0) (ts_list.getD 0x02 0) h
      pure (payloads ++ rest)

/-- `Files.walk_sectors` from a given track/sector-list head. -/
def walk_sectors (image : List Nat) (track sector : Nat) :
    Except String (List (List Nat)) :=
  walkSectorsLoop image track sector (MAX_HOPS - 1)

/-! ### dump -/

/-- `"\x7b:30s\x7d".format(find_name)`: pad with spaces up to width 30,
never truncate. -/
def pad30 (find_name : List Nat) : List Nat :=
  find_name ++ List.replicate (30 - find_name.length) 0x20

/-- The catalog lookup inside `dump`: construct the VTOC, then walk the
catalog from its head pointer looking for the padded name. -/
def findEntryResult (image : List Nat) (file_name : List Nat) :
    Except String (Option (Nat × Nat × Nat)) := do
  let vtoc ← mkVTOC image
  walkFindLoop image (pad30 file_name) (vtoc.getD 0x01 0) (vtoc.getD 0x02 0)
    (MAX_HOPS - 1)

/-- `dump(image_name, file_name)` up to the data it feeds the selected
handler: the raw data sectors of the named file, or the error the
operation dies with ("file not found" when the walk yields no match). -/
def dump (image : List Nat) (file_name : List Nat) :
    Except String (List (List Nat)) := do
  let result ← findEntryResult image file_name
  match result with
  | none => .error "file not found"
  | some (track, sector, _file_type) => walk_sectors image track sector

end A2Disk

namespace Applesoft

/-- The dictionary literal inside `token(d)` of applesoft.py, as an
association list in source order. -/
def TOKEN_TABLE : List (Nat × String) :=
  [(0x80, "END"), (0x81, "FOR"), (0x82, "NEXT"), (0x83, "DATA"), (0x84, "INPUT"),
   (0x86, "DIM"), (0x87, "READ"), (0x89, "TEXT"), (0x8A, "PR #"), (0x8B, "IN #"),
   (0x8C, "CALL"), (0x91, "HGR"), (0x92, "HCOLOR="), (0x93, "HPLOT"), (0x96, "HTAB"),
   (0x97, "HOME"), (0x9D, "NORMAL"), (0x9E, "INVERSE"), (0xA2, "VTAB"), (0xA3, "HIMEM:"),
   (0xA5, "ONERR"), (0xAB, "GOTO"), (0xAD, "IF"), (0xB0, "GOSUB"), (0xB1, "RETURN"),
   (0xB2, "REM"), (0xB4, "ON"), (0xB9, "POKE"), (0xBA, "PRINT"), (0xBD, "CLEAR"),
   (0xBE, "GET"), (0xC0, "TAB"), (0xC1, "TO"), (0xC3, "SPC("), (0xC4, "THEN"),
   (0xC7, "STEP"), (0xC8, "+"), (0xC9, "-"), (0xCA, "*"), (0xCB, "/"),
   (0xCC, ";"), (0xCD, "AND"), (0xCE, "OR"), (0xCF, ">"), (0xD0, "="),
   (0xD1, "<"), (0xD2, "SGN"), (0xD3, "INT"), (0xD4, "ABS"), (0xD6, "FRE"),
   (0xDA, "SQR"), (0xDB, "RND"), (0xE1, "ATN"), (0xE2, "PEEK"), (0xE3, "LEN"),
   (0xE4, "STR$"), (0xE5, "VAL"), (0xE7, "CHR$")]

/-- `token(d)`: dictionary lookup; `none` is Python's `KeyError` on a key
absent from the table. -/
def token (d : Nat) : Option String :=
  (TOKEN_TABLE.find? (fun p => p.1 = d)).map (fun p => p.2)

/-- `Detokenize.read_word` starting at index `i` of `data`: the
little-endian word and the index after it.  A read past the end of the
buffer is Python's `IndexError`. -/
def readWord (data : List Nat) (i : Nat) : Except String (Nat × Nat) :=
  match data.get? i, data.get? (i + 1) with
  | some lo, some hi => .ok (lo + 0x100 * hi, i + 2)
  | _, _ => .error "index out of range"

/-- The inner `while True` loop of `Detokenize.detokenize`, decoding one
line's byte stream from index `i`: the text it writes and the index after
the terminating zero byte.  Every successful step consumes one byte, so
fuel `data.length - i + 1` (or anything larger) never runs out before an
out-of-bounds read would have raised anyway; the fuel-exhausted case
therefore reports the same "index out of range" condition. -/
def detokLine (data : List Nat) : Nat → Nat → Except String (String × Nat)
  | 0, _ => .error "index out of range"
  | fuel + 1, i =>
    match data.get? i with
    | none => .error "index out of range"
    | some d =>
      if d = 0x00 then .ok ("\n", i + 1)
      else if d ≤ 0x7F then do
        let (s, j) ← detokLine data fuel (i + 1)
        pure (String.singleton (Char.ofNat d) ++ s, j)
      else
        match token d with
        | none => .error "key not recognized"
        | some kw => do
          let (s, j) ← detokLine data fuel (i + 1)
          pure (" " ++ kw ++ " " ++ s, j)

/-- The outer `while self.index < length` loop of
`Detokenize.detokenize`: the text written from index `i` on.  Each
iteration consumes at least five bytes, so `data.length` iterations of
fuel always suffice; as in `detokLine`, running out of fuel coincides
with an out-of-bounds read. -/
def detokLoop (data : List Nat) (length : Nat) : Nat → Nat → Except String String
  | 0, _ => .error "index out of range"
  | fuel + 1, i =>
    if i < length then do
      let (_memory, i2) ← readWord data i
      let (line_number, i4) ← readWord data i2
      let (line_text, j) ← detokLine data (data.length + 1) i4
      let rest ← detokLoop data length fuel j
      pure (toString line_number ++ " " ++ line_text ++ rest)
    else .ok ""

/-- `Detokenize(data).detokenize()`: everything the call writes to
standard output, or the error it dies with. -/
def detokenize (data : List Nat) : Except String String := do
  let (length, i2) ← readWord data 0
  detokLoop data length (data.length + 1) i2

end Applesoft

namespace A2Disk

/-! ### Specification-side definitions and concrete inputs -/

/-- Number of on-bits of a byte (the spec's per-byte population count). -/
def popcount8 (b : Nat) : Nat :=
  ((List.range 8).map (fun j => if b &&& (1 <<< j) ≠ 0 then 1 else 0)).sum

/-- Free-sector count as claim C2 words it: the sum, over all 35 tracks,
of the set bits of all four bytes of that track's 4-byte bitmap at 4-byte
strides from the track-map offset. -/
def claimC2_free_sectors (vtoc_buffer : List Nat) : Nat :=
  ((List.range TRACKS_PER_DISK).map (fun t =>
    ((List.range 4).map (fun b =>
      popcount8 (vtoc_buffer.getD (0x38 + t * 4 + b) 0))).sum)).sum

/-- The two-byte pair at offset `j` of a sector buffer. -/
def pairAt (ts_list : List Nat) (j : Nat) : Nat × Nat :=
  (ts_list.getD j 0, ts_list.getD (j + 1) 0)

/-- The 122 two-byte data-pointer slots of a track/sector-list sector, in
slot order. -/
def dataSlots (ts_list : List Nat) : List (Nat × Nat) :=
  (List.range TS_SLOTS).map (fun k => pairAt ts_list (0x0C + 2 * k))

/-- The data pointers the inner scan delivers: the slots strictly before
the first (0,0) slot. -/
def activeSlots (ts_list : List Nat) : List (Nat × Nat) :=
  (dataSlots ts_list).takeWhile (fun p => !(p.1 = 0x00 ∧ p.2 = 0x00 : Bool))

/-- A witnessed index-sector chain: the sector contents the walk visits,
linked by each sector's own next-pointer bytes, ending on a zero next
track byte. -/
def chainOK (image : List Nat) : Nat → Nat → List (List Nat) → Prop
  | t, _, [] => t = 0x00
  | t, s, ts :: rest =>
      t ≠ 0x00 ∧ read_sect image t s = .ok ts ∧
        chainOK image (ts.getD 0x01 0) (ts.getD 0x02 0) rest

/-- One step of next-pointer chasing: the next (track, sector) pair a
chain sector points at, if the sector is addressable. -/
def chainNext (image : List Nat) (p : Nat × Nat) : Option (Nat × Nat) :=
  match read_sect image p.1 p.2 with
  | .error _ => none
  | .ok cs => some (cs.getD 0x01 0, cs.getD 0x02 0)

/-- A catalog sector whose first slot describes an unlocked type-T file
named "A" (type/lock byte 0x00), the remaining slots blank. -/
def exC1 : List Nat :=
  (((List.replicate 256 0).set 0x0B 1).set 0x0C 1).set 0x0E 65

/-- A VTOC buffer whose track-0 bitmap is 00 00 FF 00: set bits only in
the third byte of the 4-byte track-map field. -/
def exC2 : List Nat := (List.replicate 256 0).set 0x3A 0xFF

/-- A 17-sector image whose sector (1, 0) holds next-pointer bytes
(0, 5) and no catalog entries, while sector (0, 5) (flat offset 0x500)
holds a decodable catalog entry in its first slot — start track 2, start
sector 3, name starting with the letter B — and next-pointer bytes
(0, 0). -/
def exC3 : List Nat :=
  ((((List.replicate 4352 0).set 4098 5).set (0x500 + 0x0B) 2).set
    (0x500 + 0x0C) 3).set (0x500 + 0x0E) 66

/-- The catalog chain walk as claim C3 words it, for comparison with
`walkEntriesLoop`: identical slot decoding and next-pointer bytes, but
the walk ends normally exactly when the next-pointer pair is (0, 0) —
for every pair (t, s) not equal to (0, 0) it continues by reading sector
(t, s). -/
def claimC3_walkEntriesLoop (image : List Nat) (track sector : Nat) (hopsLeft : Nat) :
    Except String (List Entry) :=
  if track = 0x00 ∧ sector = 0x00 then .ok []
  else
    match hopsLeft with
    | 0 => .error "exceeded catalog hops"
    | h + 1 => do
      let catalog_sector ← read_sect image track sector
      let rest ← claimC3_walkEntriesLoop image (catalog_sector.getD 0x01 0)
        (catalog_sector.getD 0x02 0) h
      pure (sector_entries catalog_sector ++ rest)

/-- The claim-side walk of `claimC3_walkEntriesLoop` with the same hop
budget as `walk_entries`. -/
def claimC3_walk_entries (image : List Nat) (track sector : Nat) :
    Except String (List Entry) :=
  claimC3_walkEntriesLoop image track sector (MAX_HOPS - 1)

/-- A 17-sector image whose sector (1,0) holds next-pointer bytes (1,0):
a self-looping chain. -/
def exC7 : List Nat := (List.replicate 4352 0).set 4097 1

/-- A 19-sector image holding a one-index-sector file: the index sector
at (1, 0) lists data pointers (1, 1) and (1, 2), then a (0, 0) slot and a
(0, 0) next-pointer; data sector (1, 1) starts with byte 0xAA. -/
def exC4 : List Nat :=
  (((((List.replicate 4864 0).set (4096 + 0x0C) 1).set (4096 + 0x0D) 1).set
    (4096 + 0x0E) 1).set (4096 + 0x0F) 2).set 4352 0xAA

/-- A VTOC buffer satisfying all six validation checks. -/
def exC6 : List Nat :=
  (((((List.replicate 256 0).set 0x03 0x03).set 0x27 0x7A).set
    0x34 0x23).set 0x35 0x10).set 0x37 0x01

end A2Disk

namespace Applesoft

/-- The hand-built token stream of claim C5: total length 13, one line
record with back-pointer bytes (0x00, 0x08), line number 10, and body
0xBA ' ' '"' 'H' 'I' '"' 0x00. -/
def exC5 : List Nat :=
  [0x0D, 0x00, 0x00, 0x08, 0x0A, 0x00, 0xBA, 0x20, 0x22, 0x48, 0x49, 0x22, 0x00]

end Applesoft

namespace A2Disk

/-- A VTOC buffer whose 35 track maps all read FF FF 00 00: every bit of
the valid 16-bit width set. -/
def exC2full : List Nat :=
  (List.range 256).map (fun i =>
    if 0x38 ≤ i ∧ i < 0x38 + TRACKS_PER_DISK * 4 ∧ (i - 0x38) % 4 < 2 then 0xFF else 0)

/-! ### Helper lemmas -/

theorem getD_drop (l : List α) (i j : Nat) (d : α) :
    (l.drop i).getD j d = l.getD (i + j) d := by
  simp [List.getD_eq_getElem?_getD, List.getElem?_drop]

theorem indicator_eq_testBit (w j : Nat) :
    (if w &&& (1 <<< j) ≠ 0 then (1 : Nat) else 0) = (w.testBit j).toNat := by
  rw [Nat.one_shiftLeft, Nat.and_two_pow]
  cases h : w.testBit j <;> simp [h, (Nat.two_pow_pos j).ne']

theorem bit_count_eq_sum_testBit (w : Nat) :
    bit_count w = ((List.range 0x10).map (fun j => (w.testBit j).toNat)).sum := by
  unfold bit_count
  exact congrArg List.sum (List.map_congr_left (fun j _ => indicator_eq_testBit w j))

theorem popcount8_eq_sum_testBit (b : Nat) :
    popcount8 b = ((List.range 8).map (fun j => (b.testBit j).toNat)).sum := by
  unfold popcount8
  exact congrArg List.sum (List.map_congr_left (fun j _ => indicator_eq_testBit b j))

/-- The 16-bit population count of a big-endian two-byte word is the sum
of the two bytes' population counts. -/
theorem bit_count_byte_split (hi lo : Nat) (hlo : lo < 0x100) :
    bit_count (hi * 0x100 + lo) = popcount8 hi + popcount8 lo := by
  rw [bit_count_eq_sum_testBit, popcount8_eq_sum_testBit, popcount8_eq_sum_testBit]
  have hsplit : ∀ j : Nat, (hi * 0x100 + lo).testBit j =
      if j < 8 then lo.testBit j else hi.testBit (j - 8) := by
    intro j
    have h256 : hi * 0x100 = 2 ^ 8 * hi := by ring
    rw [h256, Nat.testBit_mul_pow_two_add hi (show lo < 2 ^ 8 from hlo) j]
  have h16 : (0x10 : Nat) = 8 + 8 := by norm_num
  rw [h16, List.range_add, List.map_append, List.sum_append, List.map_map]
  have h1 : (List.range 8).map (fun j => ((hi * 0x100 + lo).testBit j).toNat) =
      (List.range 8).map (fun j => (lo.testBit j).toNat) := by
    refine List.map_congr_left (fun j hj => ?_)
    rw [hsplit j, if_pos (List.mem_range.mp hj)]
  have h2 : (List.range 8).map ((fun j => ((hi * 0x100 + lo).testBit j).toNat) ∘ (8 + ·)) =
      (List.range 8).map (fun j => (hi.testBit j).toNat) := by
    refine List.map_congr_left (fun j _ => ?_)
    show ((hi * 0x100 + lo).testBit (8 + j)).toNat = (hi.testBit j).toNat
    rw [hsplit (8 + j), if_neg (by omega), Nat.add_sub_cancel_left]
  rw [h1, h2, Nat.add_comm]

theorem ok_bind {α β ε : Type} (a : α) (f : α → Except ε β) :
    (Except.ok a : Except ε α) >>= f = f a := rfl

theorem error_bind {α β ε : Type} (e : ε) (f : α → Except ε β) :
    (Except.error e : Except ε α) >>= f = Except.error e := rfl

theorem pure_eq_ok {α ε : Type} (a : α) : (pure a : Except ε α) = Except.ok a := rfl

theorem getD_lt_256 (l : List Nat) (hb : ∀ b ∈ l, b < 0x100) (i : Nat) :
    l.getD i 0 < 0x100 := by
  rw [List.getD_eq_getElem?_getD]
  cases h : l[i]? with
  | none => simp
  | some b => simpa using hb b (List.getElem?_mem h)

/-! ### Claim C1 -/

/-- C1 is false as stated: in the catalog sector `exC1`, the slot at
offset 0x0B has type/lock byte (its third byte, `exC1[0x0D]`) equal to
0x00 — by the claim's two-condition test ("first byte ≠ 0xFF and the byte
encoding lock flag and file type ≠ 0x00") it must be skipped — yet
`Catalog.walk_entries` decodes and yields it (as an unlocked type-0x00
file), because the code's second condition tests the slot's fourth byte
(the first character of the name field), not the type/lock byte. -/
theorem c1_counterexample :
    sector_entries exC1 =
      [{ ts_track := 1, ts_sector := 1, locked := 0, file_type := 0, size := 0,
         name := 65 :: List.replicate 29 0 }] ∧
    exC1.getD 0x0D 0 = 0 := by decide

/-- C1 (amended): for every catalog sector, the slot at offset `i`
(for each of the seven slot offsets `range(0x0B, 0xFF, 0x23)`) is decoded
and yielded if and only if its first byte is not 0xFF and its fourth byte
— the first character of the 30-character name field, not the type/lock
byte — is not 0x00; every slot failing this two-condition test is
skipped. -/
theorem c1_slot_test (catalog_sector : List Nat) :
    sector_entries catalog_sector =
      (pythonRange 0x0B 0xFF 0x23).filterMap (fun i =>
        if catalog_sector.getD i 0 ≠ 0xFF ∧ catalog_sector.getD (i + 3) 0 ≠ 0x00 then
          some { ts_track := catalog_sector.getD i 0
                 ts_sector := catalog_sector.getD (i + 1) 0
                 locked := catalog_sector.getD (i + 2) 0 &&& 0x80
                 file_type := catalog_sector.getD (i + 2) 0 &&& 0x7F
                 size := catalog_sector.getD (i + 0x21) 0 +
                   catalog_sector.getD (i + 0x22) 0 * 0x100
                 name := (List.range' 0x03 0x1E).map
                   (fun j => catalog_sector.getD (i + j) 0 &&& 0x7F) }
        else none) := by
  unfold sector_entries
  refine List.filterMap_congr (fun i _ => ?_)
  simp only [getD_drop, Nat.add_zero]
  refine if_congr Iff.rfl ?_ rfl
  unfold decode_entry read_word_littleendian
  simp only [getD_drop]
  congr 1

/-! ### Claim C2 -/

/-- C2 is false as stated: on the VTOC buffer `exC2` (track-0 bitmap
bytes 00 00 FF 00) the reported free-sector count is 0, while the sum
over all 35 tracks of the set bits of the full 4-byte bitmap field is 8 —
`VTOC.free_sectors` counts only the set bits of the first two bytes of
each 4-byte track-map field. -/
theorem c2_counterexample :
    free_sectors exC2 = 0 ∧ claimC2_free_sectors exC2 = 8 := by decide

/-- C2 (amended): for every VTOC sector with byte values, the reported
free-sector count equals the sum, over all 35 tracks, of the number of
set bits in the first two bytes of that track's 4-byte free-sector bitmap
field at 4-byte strides from the track-map offset (the last two bytes of
each field are ignored); an all-zero buffer yields 0 and all-set bitmaps
within the valid 16-bit width yield the geometry maximum 560. -/
theorem c2_free_sector_count (vtoc_buffer : List Nat)
    (hb : ∀ b ∈ vtoc_buffer, b < 0x100) :
    free_sectors vtoc_buffer =
      ((List.range TRACKS_PER_DISK).map (fun t =>
        popcount8 (vtoc_buffer.getD (0x38 + t * 4) 0) +
          popcount8 (vtoc_buffer.getD (0x38 + t * 4 + 1) 0))).sum ∧
    free_sectors (List.replicate 256 0) = 0 ∧
    free_sectors exC2full = 560 := by
  refine ⟨?_, by decide, by decide⟩
  unfold free_sectors
  refine congrArg List.sum (List.map_congr_left (fun t _ => ?_))
  unfold track_map read_word_bigendian
  exact bit_count_byte_split _ _ (getD_lt_256 _ hb _)

/-- Witness for `c2_free_sector_count` at the all-set buffer. -/
theorem c2_free_sector_count_witness :
    free_sectors exC2full =
      ((List.range TRACKS_PER_DISK).map (fun t =>
        popcount8 (exC2full.getD (0x38 + t * 4) 0) +
          popcount8 (exC2full.getD (0x38 + t * 4 + 1) 0))).sum ∧
    free_sectors (List.replicate 256 0) = 0 ∧
    free_sectors exC2full = 560 :=
  c2_free_sector_count exC2full (by decide)

/-! ### Claim C3 -/

/-- C3 is false as stated: on the image `exC3` the catalog sector at
(1, 0) carries the next-pointer pair (0, 5), which is not (0, 0), and
sector (0, 5) holds a decodable entry — a walker that stops only at
(0, 0), `claimC3_walk_entries`, continues there and yields that entry,
but the source walk ends normally at the zero track byte and returns no
entries: the two walks observably differ, so the source does not stop
"only when both bytes of the next pointer are zero". -/
theorem c3_counterexample :
    walk_entries exC3 1 0 = .ok [] ∧
    claimC3_walk_entries exC3 1 0 =
      .ok [{ ts_track := 2, ts_sector := 3, locked := 0, file_type := 0, size := 0,
             name := 66 :: List.replicate 29 0 }] ∧
    (read_sect exC3 1 0).map (fun cs => (cs.getD 0x01 0, cs.getD 0x02 0)) =
      .ok ((0, 5) : Nat × Nat) ∧
    walk_entries exC3 1 0 ≠ claimC3_walk_entries exC3 1 0 := by
  refine ⟨rfl, rfl, rfl, fun h => ?_⟩
  rw [show walk_entries exC3 1 0 = .ok [] from rfl,
    show claimC3_walk_entries exC3 1 0 =
      .ok [{ ts_track := 2, ts_sector := 3, locked := 0, file_type := 0, size := 0,
             name := 66 :: List.replicate 29 0 }] from rfl] at h
  exact absurd (Except.ok.inj h) (by decide)

/-- C3 (amended): both chain walkers stop following the chain exactly
when the next track byte is 0x00, whatever the next sector byte holds;
for every next pointer (t, s) with t ≠ 0x00 (even t = 0 paired with
s ≠ 0 would stop), the walk continues by reading sector (t, s). -/
theorem c3_stop_condition :
    (∀ (image : List Nat) (s hopsLeft : Nat),
        walkEntriesLoop image 0 s hopsLeft = .ok []) ∧
    (∀ (image : List Nat) (s hopsLeft : Nat),
        walkSectorsLoop image 0 s hopsLeft = .ok []) ∧
    (∀ (image : List Nat) (t s h : Nat), t ≠ 0 →
        walkEntriesLoop image t s (h + 1) =
          (read_sect image t s).bind (fun cs =>
            (walkEntriesLoop image (cs.getD 0x01 0) (cs.getD 0x02 0) h).map
              (fun rest => sector_entries cs ++ rest))) ∧
    (∀ (image : List Nat) (t s h : Nat), t ≠ 0 →
        walkSectorsLoop image t s (h + 1) =
          (read_sect image t s).bind (fun ts =>
            (innerLoop image ts 0x0C TS_SLOTS).bind (fun payloads =>
              (walkSectorsLoop image (ts.getD 0x01 0) (ts.getD 0x02 0) h).map
                (fun rest => payloads ++ rest)))) := by
  refine ⟨fun image s hopsLeft => by cases hopsLeft <;> rfl,
    fun image s hopsLeft => by cases hopsLeft <;> rfl, ?_, ?_⟩
  · intro image t s h ht
    rw [walkEntriesLoop, if_neg ht]
    cases read_sect image t s with
    | error e => rfl
    | ok cs =>
      show (walkEntriesLoop image (cs.getD 0x01 0) (cs.getD 0x02 0) h).bind
          (fun rest => pure (sector_entries cs ++ rest)) =
        (walkEntriesLoop image (cs.getD 0x01 0) (cs.getD 0x02 0) h).map
          (fun rest => sector_entries cs ++ rest)
      cases walkEntriesLoop image (cs.getD 0x01 0) (cs.getD 0x02 0) h <;> rfl
  · intro image t s h ht
    rw [walkSectorsLoop, if_neg ht]
    cases read_sect image t s with
    | error e => rfl
    | ok ts =>
      show (innerLoop image ts 0x0C TS_SLOTS).bind
          (fun payloads =>
            (walkSectorsLoop image (ts.getD 0x01 0) (ts.getD 0x02 0) h).bind
              (fun rest => pure (payloads ++ rest))) =
        (innerLoop image ts 0x0C TS_SLOTS).bind
          (fun payloads =>
            (walkSectorsLoop image (ts.getD 0x01 0) (ts.getD 0x02 0) h).map
              (fun rest => payloads ++ rest))
      cases innerLoop image ts 0x0C TS_SLOTS with
      | error e => rfl
      | ok payloads =>
        show (walkSectorsLoop image (ts.getD 0x01 0) (ts.getD 0x02 0) h).bind
            (fun rest => pure (payloads ++ rest)) =
          (walkSectorsLoop image (ts.getD 0x01 0) (ts.getD 0x02 0) h).map
            (fun rest => payloads ++ rest)
        cases walkSectorsLoop image (ts.getD 0x01 0) (ts.getD 0x02 0) h <;> rfl

/-- Witness for `c3_stop_condition`: on `exC3` the walk from track byte 0
with sector byte 5 ends normally, and from (1, 0) it continues by
reading that sector. -/
theorem c3_stop_condition_witness :
    walkEntriesLoop exC3 0 5 559 = .ok [] ∧
    walkEntriesLoop exC3 1 0 (558 + 1) =
      (read_sect exC3 1 0).bind (fun cs =>
        (walkEntriesLoop exC3 (cs.getD 0x01 0) (cs.getD 0x02 0) 558).map
          (fun rest => sector_entries cs ++ rest)) :=
  ⟨c3_stop_condition.1 exC3 5 559, c3_stop_condition.2.2.1 exC3 1 0 558 (by decide)⟩

/-! ### Claim C7 -/

theorem read_sect_error (image : List Nat) (t s : Nat) (e : String)
    (h : read_sect image t s = .error e) : e = "seek out of range" := by
  unfold read_sect at h
  split at h
  · exact (Except.error.inj h).symm
  · exact absurd h (by simp)

theorem innerLoop_error (image ts : List Nat) :
    ∀ k i e, innerLoop image ts i k = .error e → e = "seek out of range" := by
  intro k
  induction k with
  | zero => intro i e h; exact absurd h (by simp [innerLoop])
  | succ k ih =>
    intro i e h
    rw [innerLoop] at h
    split at h
    · exact absurd h (by simp)
    · cases hr : read_sect image (ts.getD i 0) (ts.getD (i + 1) 0) with
      | error e2 =>
        simp only [hr, error_bind] at h
        exact (Except.error.inj h) ▸ read_sect_error _ _ _ _ hr
      | ok d =>
        simp only [hr, ok_bind] at h
        cases hrec : innerLoop image ts (i + 2) k with
        | error e3 =>
          simp only [hrec, error_bind] at h
          exact (Except.error.inj h) ▸ ih (i + 2) e3 hrec
        | ok rest =>
          simp only [hrec, ok_bind, pure_eq_ok] at h
          exact absurd h (by simp)

theorem walkEntriesLoop_error (image : List Nat) :
    ∀ hopsLeft t s e, walkEntriesLoop image t s hopsLeft = .error e →
      e = "exceeded catalog hops" ∨ e = "seek out of range" := by
  intro hopsLeft
  induction hopsLeft with
  | zero =>
    intro t s e h
    rw [walkEntriesLoop] at h
    split at h
    · exact absurd h (by simp)
    · exact Or.inl (Except.error.inj h).symm
  | succ hops ih =>
    intro t s e h
    rw [walkEntriesLoop] at h
    split at h
    · exact absurd h (by simp)
    · cases hr : read_sect image t s with
      | error e2 =>
        simp only [hr, error_bind] at h
        exact Or.inr ((Except.error.inj h) ▸ read_sect_error _ _ _ _ hr)
      | ok cs =>
        simp only [hr, ok_bind] at h
        cases hrec : walkEntriesLoop image (cs.getD 0x01 0) (cs.getD 0x02 0) hops with
        | error e3 =>
          simp only [hrec, error_bind] at h
          exact (Except.error.inj h) ▸ ih _ _ e3 hrec
        | ok rest =>
          simp only [hrec, ok_bind, pure_eq_ok] at h
          exact absurd h (by simp)

theorem walkSectorsLoop_error (image : List Nat) :
    ∀ hopsLeft t s e, walkSectorsLoop image t s hopsLeft = .error e →
      e = "exceeded track/sector list hops" ∨ e = "seek out of range" := by
  intro hopsLeft
  induction hopsLeft with
  | zero =>
    intro t s e h
    rw [walkSectorsLoop] at h
    split at h
    · exact absurd h (by simp)
    · exact Or.inl (Except.error.inj h).symm
  | succ hops ih =>
    intro t s e h
    rw [walkSectorsLoop] at h
    split at h
    · exact absurd h (by simp)
    · cases hr : read_sect image t s with
      | error e2 =>
        simp only [hr, error_bind] at h
        exact Or.inr ((Except.error.inj h) ▸ read_sect_error _ _ _ _ hr)
      | ok ts_list =>
        simp only [hr, ok_bind] at h
        cases hi : innerLoop image ts_list 0x0C TS_SLOTS with
        | error e2 =>
          simp only [hi, error_bind] at h
          exact Or.inr ((Except.error.inj h) ▸ innerLoop_error _ _ _ _ _ hi)
        | ok payloads =>
          simp only [hi, ok_bind] at h
          cases hrec : walkSectorsLoop image (ts_list.getD 0x01 0)
              (ts_list.getD 0x02 0) hops with
          | error e3 =>
            simp only [hrec, error_bind] at h
            exact (Except.error.inj h) ▸ ih _ _ e3 hrec
          | ok rest =>
            simp only [hrec, ok_bind, pure_eq_ok] at h
            exact absurd h (by simp)

theorem walkEntriesLoop_selfloop (image : List Nat) (t s : Nat) (ht : t ≠ 0)
    (hc : chainNext image (t, s) = some (t, s)) :
    ∀ hopsLeft, walkEntriesLoop image t s hopsLeft = .error "exceeded catalog hops" := by
  intro hopsLeft
  induction hopsLeft with
  | zero => rw [walkEntriesLoop, if_neg ht]
  | succ hops ih =>
    rw [walkEntriesLoop, if_neg ht]
    unfold chainNext at hc
    cases hr : read_sect image t s with
    | error e => rw [hr] at hc; exact absurd hc (by simp)
    | ok cs =>
      rw [hr] at hc
      have h1 : cs.getD 0x01 0 = t ∧ cs.getD 0x02 0 = s := by
        have h2 := Option.some.inj hc
        exact ⟨congrArg Prod.fst h2, congrArg Prod.snd h2⟩
      simp only [hr, ok_bind]
      rw [h1.1, h1.2, ih]
      rfl

theorem walkSectorsLoop_selfloop (image : List Nat) (t s : Nat) (ht : t ≠ 0)
    (hc : chainNext image (t, s) = some (t, s)) :
    ∀ hopsLeft, walkSectorsLoop image t s hopsLeft = .error "exceeded track/sector list hops" ∨
      walkSectorsLoop image t s hopsLeft = .error "seek out of range" := by
  intro hopsLeft
  induction hopsLeft with
  | zero => exact Or.inl (by rw [walkSectorsLoop, if_neg ht])
  | succ hops ih =>
    unfold chainNext at hc
    cases hr : read_sect image t s with
    | error e => rw [hr] at hc; exact absurd hc (by simp)
    | ok ts_list =>
      rw [hr] at hc
      have h1 : ts_list.getD 0x01 0 = t ∧ ts_list.getD 0x02 0 = s := by
        have h2 := Option.some.inj hc
        exact ⟨congrArg Prod.fst h2, congrArg Prod.snd h2⟩
      cases hi : innerLoop image ts_list 0x0C TS_SLOTS with
      | error e2 =>
        refine Or.inr ?_
        rw [walkSectorsLoop, if_neg ht]
        simp only [hr, ok_bind, hi, error_bind]
        rw [innerLoop_error _ _ _ _ _ hi]
      | ok payloads =>
        cases ih with
        | inl h2 =>
          refine Or.inl ?_
          rw [walkSectorsLoop, if_neg ht]
          simp only [hr, ok_bind, hi]
          rw [h1.1, h1.2, h2]
          rfl
        | inr h2 =>
          refine Or.inr ?_
          rw [walkSectorsLoop, if_neg ht]
          simp only [hr, ok_bind, hi]
          rw [h1.1, h1.2, h2]
          rfl

/-- C7 is false as stated: the invocation of `Files.walk_sectors` on the
empty image from start pointer (40, 0) aborts with the address-range
error of `Disk.seek_sect`, not with the corrupt-chain (hop tripwire)
error, and its chain never reaches the termination condition — the
claimed dichotomy "termination reached or CorruptChain raised" omits
this third outcome. -/
theorem c7_counterexample :
    walk_sectors ([] : List Nat) 40 0 = .error "seek out of range" ∧
    walk_sectors ([] : List Nat) 40 0 ≠ .error "exceeded track/sector list hops" := by
  refine ⟨rfl, fun h => ?_⟩
  rw [show walk_sectors ([] : List Nat) 40 0 = .error "seek out of range" from rfl] at h
  exact absurd (Except.error.inj h) (by decide)

/-- C7 (amended): both walkers are total functions of the start address
whose hop budget is the source's 560-hop tripwire (the counter trips on
reaching 560, after at most 559 followed chain sectors); every abnormal
outcome is either the corrupt-chain error or the sector-address
out-of-range error, and a chain sector that names itself as its own next
pointer (a cycle) always produces an error — never unbounded work. -/
theorem c7_termination :
    (∀ (image : List Nat) (t s hopsLeft : Nat) (e : String),
        walkEntriesLoop image t s hopsLeft = .error e →
          e = "exceeded catalog hops" ∨ e = "seek out of range") ∧
    (∀ (image : List Nat) (t s hopsLeft : Nat) (e : String),
        walkSectorsLoop image t s hopsLeft = .error e →
          e = "exceeded track/sector list hops" ∨ e = "seek out of range") ∧
    (∀ (image : List Nat) (t s : Nat), t ≠ 0 →
        chainNext image (t, s) = some (t, s) →
          walk_entries image t s = .error "exceeded catalog hops" ∧
            (walk_sectors image t s = .error "exceeded track/sector list hops" ∨
              walk_sectors image t s = .error "seek out of range")) :=
  ⟨fun image t s hopsLeft e h => walkEntriesLoop_error image hopsLeft t s e h,
   fun image t s hopsLeft e h => walkSectorsLoop_error image hopsLeft t s e h,
   fun image t s ht hc =>
     ⟨walkEntriesLoop_selfloop image t s ht hc (MAX_HOPS - 1),
      walkSectorsLoop_selfloop image t s ht hc (MAX_HOPS - 1)⟩⟩

/-- Witness for `c7_termination`: the image `exC7` has a self-looping
chain at (1, 0); both walks fail rather than run unboundedly. -/
theorem c7_termination_witness :
    walk_entries exC7 1 0 = .error "exceeded catalog hops" ∧
    (walk_sectors exC7 1 0 = .error "exceeded track/sector list hops" ∨
      walk_sectors exC7 1 0 = .error "seek out of range") :=
  c7_termination.2.2 exC7 1 0 (by decide) (by decide)

/-! ### Claim C4 -/

theorem innerLoop_eq_mapM (image ts_list : List Nat) :
    ∀ k i, innerLoop image ts_list i k =
      (((List.range k).map (fun m => pairAt ts_list (i + 2 * m))).takeWhile
        (fun p => !(p.1 = 0x00 ∧ p.2 = 0x00 : Bool))).mapM
        (fun p => read_sect image p.1 p.2) := by
  intro k
  induction k with
  | zero => intro i; rfl
  | succ k ih =>
    intro i
    rw [innerLoop, List.range_succ_eq_map, List.map_cons, List.map_map]
    have hhead : pairAt ts_list (i + 2 * 0) = pairAt ts_list i := by norm_num
    have htail : (List.range k).map ((fun m => pairAt ts_list (i + 2 * m)) ∘ Nat.succ) =
        (List.range k).map (fun m => pairAt ts_list (i + 2 + 2 * m)) := by
      refine List.map_congr_left (fun m _ => ?_)
      show pairAt ts_list (i + 2 * (m + 1)) = pairAt ts_list (i + 2 + 2 * m)
      congr 1
      ring
    rw [hhead, htail]
    by_cases h0 : ts_list.getD i 0 = 0x00 ∧ ts_list.getD (i + 1) 0 = 0x00
    · rw [if_pos h0]
      rw [List.takeWhile_cons_of_neg (by
        show ¬((!(ts_list.getD i 0 = 0x00 ∧ ts_list.getD (i + 1) 0 = 0x00 : Bool)) = true)
        rw [decide_eq_true h0]
        decide)]
      rfl
    · rw [if_neg h0]
      rw [List.takeWhile_cons_of_pos (by
        show (!(ts_list.getD i 0 = 0x00 ∧ ts_list.getD (i + 1) 0 = 0x00 : Bool)) = true
        rw [decide_eq_false h0]
        decide)]
      rw [List.mapM_cons, ← ih (i + 2)]
      rfl

theorem read_sect_ok (image : List Nat) (t s : Nat) (l : List Nat)
    (h : read_sect image t s = .ok l) :
    l = (image.drop ((t * SECTORS_PER_TRACK + s) * SECTOR_SIZE)).take SECTOR_SIZE := by
  unfold read_sect at h
  split at h
  · exact absurd h (by simp)
  · exact (Except.ok.inj h).symm

theorem mapM_read_ok (image : List Nat) :
    ∀ (slots : List (Nat × Nat)) (l : List (List Nat)),
      slots.mapM (fun p => read_sect image p.1 p.2) = .ok l →
      l = slots.map (fun p =>
        (image.drop ((p.1 * SECTORS_PER_TRACK + p.2) * SECTOR_SIZE)).take SECTOR_SIZE) := by
  intro slots
  induction slots with
  | nil => intro l h; exact (Except.ok.inj h).symm
  | cons p rest ih =>
    intro l h
    rw [List.mapM_cons] at h
    cases hr : read_sect image p.1 p.2 with
    | error e => simp only [hr, error_bind] at h; exact absurd h (by simp)
    | ok d =>
      simp only [hr, ok_bind] at h
      cases hrec : rest.mapM (fun p => read_sect image p.1 p.2) with
      | error e => simp only [hrec, error_bind] at h; exact absurd h (by simp)
      | ok l2 =>
        simp only [hrec, ok_bind, pure_eq_ok] at h
        have hl : l = d :: l2 := (Except.ok.inj h).symm
        rw [hl, List.map_cons, read_sect_ok image p.1 p.2 d hr, ih l2 hrec]

/-- C4 (confirmed): within each index sector the two-byte slots at fixed
offsets are scanned in slot order, the inner scan stopping at the first
(0, 0) slot without ending the file, and every slot before that point has
its data sector read and delivered — so the consumer is invoked once per
referenced data sector, with the 256-byte payloads in exactly index-chain
order: the concatenation, over the chain of index sectors, of the
per-sector payload lists in slot order. -/
theorem c4_delivery_order :
    (∀ image ts_list, innerLoop image ts_list 0x0C TS_SLOTS =
        (activeSlots ts_list).mapM (fun p => read_sect image p.1 p.2)) ∧
    (∀ image t s hopsLeft payloads,
        walkSectorsLoop image t s hopsLeft = .ok payloads →
        ∃ chain, chainOK image t s chain ∧
          payloads = (chain.map (fun ts_list =>
            (activeSlots ts_list).map (fun p =>
              (image.drop ((p.1 * SECTORS_PER_TRACK + p.2) * SECTOR_SIZE)).take
                SECTOR_SIZE))).flatten) := by
  have hinner : ∀ image ts_list, innerLoop image ts_list 0x0C TS_SLOTS =
      (activeSlots ts_list).mapM (fun p => read_sect image p.1 p.2) :=
    fun image ts_list => innerLoop_eq_mapM image ts_list TS_SLOTS 0x0C
  refine ⟨hinner, ?_⟩
  intro image t s hopsLeft
  induction hopsLeft generalizing t s with
  | zero =>
    intro payloads hw
    rw [walkSectorsLoop] at hw
    by_cases ht : t = 0x00
    · rw [if_pos ht] at hw
      refine ⟨[], ht, ?_⟩
      rw [← Except.ok.inj hw]
      rfl
    · rw [if_neg ht] at hw
      exact absurd hw (by simp)
  | succ hops ih =>
    intro payloads hw
    rw [walkSectorsLoop] at hw
    by_cases ht : t = 0x00
    · rw [if_pos ht] at hw
      refine ⟨[], ht, ?_⟩
      rw [← Except.ok.inj hw]
      rfl
    · rw [if_neg ht] at hw
      cases hr : read_sect image t s with
      | error e => simp only [hr, error_bind] at hw; exact absurd hw (by simp)
      | ok ts_list =>
        simp only [hr, ok_bind] at hw
        cases hi : innerLoop image ts_list 0x0C TS_SLOTS with
        | error e => simp only [hi, error_bind] at hw; exact absurd hw (by simp)
        | ok ps =>
          simp only [hi, ok_bind] at hw
          cases hrec : walkSectorsLoop image (ts_list.getD 0x01 0)
              (ts_list.getD 0x02 0) hops with
          | error e => simp only [hrec, error_bind] at hw; exact absurd hw (by simp)
          | ok rest =>
            simp only [hrec, ok_bind, pure_eq_ok] at hw
            obtain ⟨chain, hchain, hrest⟩ := ih _ _ rest hrec
            refine ⟨ts_list :: chain, ⟨ht, hr, hchain⟩, ?_⟩
            rw [← Except.ok.inj hw, List.map_cons, List.flatten_cons, ← hrest]
            have hps : ps = (activeSlots ts_list).map (fun p =>
                (image.drop ((p.1 * SECTORS_PER_TRACK + p.2) * SECTOR_SIZE)).take
                  SECTOR_SIZE) := by
              refine mapM_read_ok image (activeSlots ts_list) ps ?_
              rw [← hinner image ts_list]
              exact hi
            rw [hps]

/-- Witness for `c4_delivery_order`: on `exC4`, the two-pointer file at
(2, 0) delivers exactly its two data sectors, in pointer order. -/
theorem c4_delivery_order_witness :
    ∃ chain, chainOK exC4 1 0 chain ∧
      ((0xAA :: List.replicate 255 0) :: [List.replicate 256 0] : List (List Nat)) =
        (chain.map (fun ts_list =>
          (activeSlots ts_list).map (fun p =>
            (exC4.drop ((p.1 * SECTORS_PER_TRACK + p.2) * SECTOR_SIZE)).take
              SECTOR_SIZE))).flatten :=
  c4_delivery_order.2 exC4 1 0 (MAX_HOPS - 1)
    ((0xAA :: List.replicate 255 0) :: [List.replicate 256 0]) rfl

end A2Disk

namespace Applesoft

/-! ### Claim C5 -/

/-- C5 is false as stated: on the hand-built token stream `exC5` the
Detokenizer does not emit the claimed text `10 PRINT "HI"` — the keyword
is emitted with a space on each side ON TOP of the line-number separator
space and the literal 0x20 byte of the stream, so two spaces appear on
each side of PRINT. -/
theorem c5_counterexample :
    detokenize exC5 ≠ .ok "10 PRINT \"HI\"\n" ∧
    detokenize exC5 = .ok "10  PRINT  \"HI\"\n" := by
  refine ⟨fun h => ?_, rfl⟩
  rw [show detokenize exC5 = .ok "10  PRINT  \"HI\"\n" from rfl] at h
  exact absurd (Except.ok.inj h) (by decide)

/-- C5 (amended): on an input buffer of a little-endian 16-bit total
length 13, then one line record with any 16-bit back-pointer, line number
10 and the body bytes 0xBA 0x20 0x22 0x48 0x49 0x22 0x00 (the total
length reached afterwards), the Detokenizer emits exactly the text
`10  PRINT  "HI"` — two spaces around PRINT, from the line-number
separator space plus the token padding, and the token padding plus the
literal 0x20 — followed by a single line break. -/
theorem c5_detokenize_output (m0 m1 : Nat) :
    detokenize [0x0D, 0x00, m0, m1, 0x0A, 0x00, 0xBA, 0x20, 0x22, 0x48, 0x49, 0x22, 0x00] =
      .ok "10  PRINT  \"HI\"\n" := rfl

/-! ### Claim C9 -/

/-- C9 (confirmed): during detokenizing, a byte at or above 0x80 that is
a key of the sparse token table is emitted as that key's keyword string
(surrounded by spaces, the decode continuing), and a byte at or above
0x80 absent from the table — 0x85 and 0x88 among them — aborts the
decode with the key-not-recognized error; every key of the table lies in
the high range, so no high byte outside the table is silently skipped,
passed through, or approximated. -/
theorem c9_token_table :
    (∀ d kw, token d = some kw → 0x80 ≤ d ∧ d ≤ 0xFF) ∧
    (token 0x85 = none ∧ token 0x88 = none) ∧
    (∀ (data : List Nat) (fuel i d : Nat), data.get? i = some d → 0x80 ≤ d →
      (∀ kw, token d = some kw →
        detokLine data (fuel + 1) i =
          (detokLine data fuel (i + 1)).map
            (fun r => (" " ++ kw ++ " " ++ r.1, r.2))) ∧
      (token d = none →
        detokLine data (fuel + 1) i = .error "key not recognized")) := by
  refine ⟨?_, ⟨rfl, rfl⟩, ?_⟩
  · intro d kw h
    unfold token at h
    cases hf : TOKEN_TABLE.find? (fun p => p.1 = d) with
    | none => rw [hf] at h; exact absurd h (by simp)
    | some q =>
      have hq : q ∈ TOKEN_TABLE := List.mem_of_find?_eq_some hf
      have hd' := List.find?_some hf
      have hd : q.1 = d := of_decide_eq_true hd'
      have hrange : ∀ p ∈ TOKEN_TABLE, 0x80 ≤ p.1 ∧ p.1 ≤ 0xFF := by decide
      exact hd ▸ hrange q hq
  · intro data fuel i d hget hhigh
    have hne : ¬(d = 0x00) := by omega
    have hle : ¬(d ≤ 0x7F) := by omega
    constructor
    · intro kw hkw
      simp only [detokLine, hget, if_neg hne, if_neg hle, hkw]
      cases detokLine data fuel (i + 1) with
      | error e => rfl
      | ok r => cases r; rfl
    · intro hkw
      simp only [detokLine, hget, if_neg hne, if_neg hle, hkw]

/-- Witness for `c9_token_table`: byte 0xBA (PRINT) is expanded, byte
0x85 aborts the decode. -/
theorem c9_token_table_witness :
    detokLine [0xBA, 0x00] (2 + 1) 0 =
      (detokLine [0xBA, 0x00] 2 1).map
        (fun r => (" " ++ "PRINT" ++ " " ++ r.1, r.2)) ∧
    detokLine [0x85] (5 + 1) 0 = .error "key not recognized" :=
  ⟨(c9_token_table.2.2 [0xBA, 0x00] 2 0 0xBA (by decide) (by decide)).1 "PRINT" rfl,
   (c9_token_table.2.2 [0x85] 5 0 0x85 (by decide) (by decide)).2 rfl⟩

end Applesoft

namespace A2Disk

/-! ### Claim C6 -/

theorem validateList_ok_iff (vtoc : List Nat) :
    ∀ L, validateList vtoc L = .ok () ↔ ∀ p ∈ L, vtoc.get? p.1 = some p.2 := by
  intro L
  induction L with
  | nil => simp [validateList]
  | cons q rest ih =>
    obtain ⟨off, val⟩ := q
    rw [validateList]
    cases hg : vtoc.get? off with
    | none =>
      dsimp only
      constructor
      · intro h; exact absurd h (by simp)
      · intro h
        have h2 := h (off, val) (List.mem_cons_self _ _)
        rw [hg] at h2
        exact absurd h2 (by simp)
    | some b =>
      dsimp only
      by_cases hb : b = val
      · rw [if_neg (fun hc => hc hb)]
        constructor
        · intro h p hp
          cases List.mem_cons.mp hp with
          | inl hph => rw [hph]; rw [hg, hb]
          | inr hpt => exact ih.mp h p hpt
        · intro h
          exact ih.mpr (fun p hp => h p (List.mem_cons_of_mem _ hp))
      · rw [if_pos hb]
        constructor
        · intro h; exact absurd h (by simp)
        · intro h
          have h2 := h (off, val) (List.mem_cons_self _ _)
          rw [hg] at h2
          exact absurd (Option.some.inj h2) hb

theorem validateList_result (vtoc : List Nat) :
    ∀ L, (∀ p ∈ L, ∃ b, vtoc.get? p.1 = some b) →
      validateList vtoc L = .ok () ∨
        validateList vtoc L = .error "not an Apple DOS 3.3 disk" := by
  intro L
  induction L with
  | nil => intro _; exact Or.inl rfl
  | cons q rest ih =>
    obtain ⟨off, val⟩ := q
    intro hs
    rw [validateList]
    cases hg : vtoc.get? off with
    | none =>
      obtain ⟨b, hb⟩ := hs (off, val) (List.mem_cons_self _ _)
      rw [hg] at hb
      exact absurd hb (by simp)
    | some b =>
      dsimp only
      by_cases hb : b ≠ val
      · rw [if_pos hb]; exact Or.inr rfl
      · rw [if_neg hb]
        exact ih (fun p hp => hs p (List.mem_cons_of_mem _ hp))

/-- C6 (confirmed): VolumeDirectory construction succeeds if and only if
all six fixed (offset, expected-value) pairs match the sector read from
the well-known VTOC address (track 0x11, sector 0x00, flat offset
0x11000), and mutating any single one of the six checked bytes of a valid
VTOC buffer to a different value makes validation fail with the
"not an Apple DOS 3.3 disk" error — no partial acceptance. -/
theorem c6_vtoc_validation :
    (∀ image : List Nat,
      (∃ buffer, mkVTOC image = .ok buffer) ↔
        ∀ p ∈ VALIDATION, ((image.drop 0x11000).take 0x100).get? p.1 = some p.2) ∧
    (∀ (vtoc_buffer : List Nat) (off val : Nat), validate vtoc_buffer = .ok () →
      off ∈ VALIDATION.map Prod.fst → val ≠ vtoc_buffer.getD off 0 →
      validate (vtoc_buffer.set off val) = .error "not an Apple DOS 3.3 disk") := by
  constructor
  · intro image
    have hread : mkVTOC image =
        (validate ((image.drop 0x11000).take 0x100)).bind
          (fun _ => pure ((image.drop 0x11000).take 0x100)) := rfl
    constructor
    · rintro ⟨buffer, hb⟩
      cases hv : validate ((image.drop 0x11000).take 0x100) with
      | error e =>
        rw [hread] at hb
        rw [hv] at hb
        exact absurd hb (by simp [Except.bind])
      | ok u =>
        cases u
        exact (validateList_ok_iff _ VALIDATION).mp hv
    · intro h
      have hv : validate ((image.drop 0x11000).take 0x100) = .ok () :=
        (validateList_ok_iff _ VALIDATION).mpr h
      refine ⟨(image.drop 0x11000).take 0x100, ?_⟩
      rw [hread, hv]
      rfl
  · intro vtoc_buffer off val hvalid hoff hval
    have hall : ∀ p ∈ VALIDATION, vtoc_buffer.get? p.1 = some p.2 :=
      (validateList_ok_iff _ VALIDATION).mp hvalid
    obtain ⟨p, hp, hpfst⟩ := List.mem_map.mp hoff
    have hgp : vtoc_buffer.get? p.1 = some p.2 := hall p hp
    rw [List.get?_eq_getElem?] at hgp
    obtain ⟨hlt, hval2⟩ := List.getElem?_eq_some.mp hgp
    have hgd : vtoc_buffer.getD off 0 = p.2 := by
      rw [← hpfst, List.getD_eq_getElem?_getD, hgp]
      rfl
    have hset : (vtoc_buffer.set off val).get? off = some val := by
      rw [List.get?_eq_getElem?]
      exact List.getElem?_set_self (hpfst ▸ hlt)
    have hnotall : ¬∀ q ∈ VALIDATION, (vtoc_buffer.set off val).get? q.1 = some q.2 := by
      intro hc
      have h2 := hc p hp
      rw [hpfst, hset] at h2
      exact hval (hgd ▸ Option.some.inj h2)
    have hsome : ∀ q ∈ VALIDATION, ∃ b, (vtoc_buffer.set off val).get? q.1 = some b := by
      intro q hq
      have h2 := hall q hq
      rw [List.get?_eq_getElem?] at h2
      obtain ⟨hlt2, _⟩ := List.getElem?_eq_some.mp h2
      have hlt3 : q.1 < (vtoc_buffer.set off val).length := by
        rw [List.length_set]; exact hlt2
      refine ⟨(vtoc_buffer.set off val).get ⟨q.1, hlt3⟩, ?_⟩
      rw [List.get?_eq_getElem?]
      rw [List.getElem?_eq_getElem hlt3]
      rfl
    cases validateList_result (vtoc_buffer.set off val) VALIDATION hsome with
    | inl h => exact absurd ((validateList_ok_iff _ _).mp h) hnotall
    | inr h => exact h

/-- Witness for `c6_vtoc_validation`: the valid buffer `exC6` passes, and
mutating its checked byte at offset 0x03 (DOS version) to 0x07 fails. -/
theorem c6_vtoc_validation_witness :
    validate (exC6.set 0x03 0x07) = .error "not an Apple DOS 3.3 disk" :=
  c6_vtoc_validation.2 exC6 0x03 0x07 rfl (by decide) (by decide)

/-! ### Claim C8 -/

/-- C8 (confirmed): for a full-geometry 143,360-byte image,
`Disk.read_sect(track, sector)` returns exactly the 256 bytes stored at
flat offset (track * 16 + sector) * 256 whenever track < 35 and
sector < 16; for any (track, sector) at or beyond either bound it fails
with the seek-out-of-range error before any read, with no clamping and no
wraparound; on an unmodified image the result is a pure function of the
address, hence deterministic. -/
theorem c8_read_sect (image : List Nat) (track sector : Nat) :
    (track < TRACKS_PER_DISK ∧ sector < SECTORS_PER_TRACK →
      ∃ l, read_sect image track sector = .ok l ∧
        (image.length = 143360 → l.length = SECTOR_SIZE) ∧
        ∀ j, j < SECTOR_SIZE →
          l.getD j 0 =
            image.getD ((track * SECTORS_PER_TRACK + sector) * SECTOR_SIZE + j) 0) ∧
    (TRACKS_PER_DISK ≤ track ∨ SECTORS_PER_TRACK ≤ sector →
      read_sect image track sector = .error "seek out of range") := by
  constructor
  · rintro ⟨ht, hs⟩
    have ht' : track < 35 := ht
    have hs' : sector < 16 := hs
    refine ⟨(image.drop ((track * SECTORS_PER_TRACK + sector) * SECTOR_SIZE)).take
      SECTOR_SIZE, ?_, ?_, ?_⟩
    · unfold read_sect
      rw [if_neg (fun hc => by
        cases hc with
        | inl h2 => exact absurd ht (not_lt.mpr h2)
        | inr h2 => exact absurd hs (not_lt.mpr h2))]
    · intro hlen
      show ((image.drop ((track * 16 + sector) * 256)).take 256).length = 256
      rw [List.length_take, List.length_drop, hlen]
      have hb : (track * 16 + sector) * 256 + 256 ≤ 143360 := by omega
      omega
    · intro j hj
      have hj' : j < 256 := hj
      show ((image.drop ((track * 16 + sector) * 256)).take 256).getD j 0 =
        image.getD ((track * 16 + sector) * 256 + j) 0
      rw [List.getD_eq_getElem?_getD, List.getD_eq_getElem?_getD,
        List.getElem?_take_of_lt hj', List.getElem?_drop]
  · intro h
    unfold read_sect
    rw [if_pos h]

/-- Witness for `c8_read_sect` on the all-zero full-geometry image, at
the last valid address (34, 15) and the first invalid track 35. -/
theorem c8_read_sect_witness :
    (∃ l, read_sect (List.replicate 143360 0) 34 15 = .ok l ∧
        ((List.replicate 143360 (0 : Nat)).length = 143360 → l.length = SECTOR_SIZE) ∧
        ∀ j, j < SECTOR_SIZE →
          l.getD j 0 =
            (List.replicate 143360 0).getD ((34 * SECTORS_PER_TRACK + 15) * SECTOR_SIZE + j) 0) ∧
    read_sect (List.replicate 143360 0) 35 0 = .error "seek out of range" :=
  ⟨(c8_read_sect (List.replicate 143360 0) 34 15).1 ⟨by decide, by decide⟩,
   (c8_read_sect (List.replicate 143360 0) 35 0).2 (Or.inl (by decide))⟩

/-! ### Claim C10 -/

theorem sector_entries_name_length (cs : List Nat) (e : Entry)
    (he : e ∈ sector_entries cs) : e.name.length = 30 := by
  unfold sector_entries at he
  obtain ⟨i, hi, hf⟩ := List.mem_filterMap.mp he
  dsimp only at hf
  split at hf
  · rw [← Option.some.inj hf]
    unfold decode_entry
    simp
  · exact absurd hf (by simp)

theorem pad30_long (name : List Nat) (h : 30 < name.length) : pad30 name = name := by
  unfold pad30
  have h0 : 30 - name.length = 0 := by omega
  rw [h0]
  simp

theorem walkFindLoop_no_match (image target : List Nat) (hlen : target.length ≠ 30) :
    ∀ hopsLeft t s r, walkFindLoop image target t s hopsLeft = .ok r → r = none := by
  intro hopsLeft
  induction hopsLeft with
  | zero =>
    intro t s r h
    rw [walkFindLoop] at h
    split at h
    · exact (Except.ok.inj h).symm
    · exact absurd h (by simp)
  | succ hops ih =>
    intro t s r h
    rw [walkFindLoop] at h
    split at h
    · exact (Except.ok.inj h).symm
    · cases hr : read_sect image t s with
      | error e =>
        simp only [hr, error_bind] at h
        exact absurd h (by simp)
      | ok cs =>
        simp only [hr, ok_bind] at h
        cases hfind : (sector_entries cs).find? (fun e => e.name = target) with
        | some e =>
          have hmem := List.mem_of_find?_eq_some hfind
          have hd' := List.find?_some hfind
          have heq : e.name = target := of_decide_eq_true hd'
          have h30 := sector_entries_name_length cs e hmem
          rw [heq] at h30
          exact absurd h30 hlen
        | none =>
          simp only [hfind] at h
          exact ih _ _ r h

/-- C10 is false as stated: on the empty image, requesting the 31-letter
name AAA…A fails with the IndexError raised while validating the
too-short VTOC buffer, not with the file-not-found error — "always fails
with the file-not-found error" does not hold for images that die earlier
in the dump pipeline. -/
theorem c10_counterexample :
    dump ([] : List Nat) (List.replicate 31 65) = .error "index out of range" ∧
    dump ([] : List Nat) (List.replicate 31 65) ≠ .error "file not found" := by
  refine ⟨rfl, fun h => ?_⟩
  rw [show dump ([] : List Nat) (List.replicate 31 65) = .error "index out of range"
    from rfl] at h
  exact absurd (Except.error.inj h) (by decide)

/-- C10 (amended): in the dump-named-file operation, the requested name
is space-padded up to width 30 but never truncated, while every yielded
catalog entry name is exactly 30 characters; therefore, for every image,
requesting a file name longer than 30 characters never matches any entry
and never dumps a file — and whenever the VTOC validation and the catalog
walk themselves complete, the operation fails with precisely the
file-not-found error. -/
theorem c10_long_name :
    (∀ name : List Nat, 30 < name.length → pad30 name = name) ∧
    (∀ cs e, e ∈ sector_entries cs → e.name.length = 30) ∧
    (∀ image name : List Nat, 30 < name.length →
      (∀ r, findEntryResult image name = .ok r → r = none) ∧
      ((∃ r, findEntryResult image name = .ok r) →
        dump image name = .error "file not found") ∧
      (∀ v, dump image name ≠ .ok v)) := by
  refine ⟨pad30_long, sector_entries_name_length, ?_⟩
  intro image name hlen
  have hplen : (pad30 name).length ≠ 30 := by
    rw [pad30_long name hlen]
    omega
  have hfind : ∀ r, findEntryResult image name = .ok r → r = none := by
    intro r h
    unfold findEntryResult at h
    cases hv : mkVTOC image with
    | error e =>
      simp only [hv, error_bind] at h
      exact absurd h (by simp)
    | ok vtoc =>
      simp only [hv, ok_bind] at h
      exact walkFindLoop_no_match image (pad30 name) hplen _ _ _ r h
  refine ⟨hfind, ?_, ?_⟩
  · rintro ⟨r, hr⟩
    have hnone := hfind r hr
    unfold dump
    simp only [hr, ok_bind, hnone]
  · intro v hv2
    unfold dump at hv2
    cases hr : findEntryResult image name with
    | error e =>
      simp only [hr, error_bind] at hv2
      exact absurd hv2 (by simp)
    | ok r =>
      have hnone := hfind r hr
      simp only [hr, ok_bind, hnone] at hv2
      exact absurd hv2 (by simp)

/-- Witness for `c10_long_name` at the empty image and a 31-letter
name. -/
theorem c10_long_name_witness :
    pad30 (List.replicate 31 65) = List.replicate 31 65 ∧
    dump ([] : List Nat) (List.replicate 31 65) ≠ .ok [] :=
  ⟨c10_long_name.1 (List.replicate 31 65) (by decide),
   (c10_long_name.2.2 ([] : List Nat) (List.replicate 31 65) (by decide)).2.2 []⟩

end A2Disk
